import Mathlib

/-!
Verification of the incremental suggestion cache and resolution engine of
`src/App.tsx` (the Convose interests autocomplete screen).  JavaScript
strings are modelled as Lean `String`s; `trim` and `toLowerCase` are
modelled character-wise (`strTrim`, `strToLower`) so that every definition
evaluates by kernel reduction; the React component state is an explicit
`AppState` record and every handler is a pure state transformer.
-/

namespace Convose

/-- The `Interest` shape of `App.tsx` (one autocomplete candidate).  An
optional field that JS leaves `undefined` is `none`. -/
structure Interest where
  id : Option String
  name : String
  emoji : Option String
  secondary_term : Option String
  popularity : Option Nat
deriving DecidableEq

/-- JS truthiness of an optional string field: `undefined` and `""` are
falsy, every other string truthy. -/
def truthyStr : Option String → Bool
  | none => false
  | some s => s != ""

/-- The identity test `(item.id && sug.id && item.id === sug.id) ||
item.name === sug.name`, used at lines 410-414 (filtering fetched
suggestions against `selectedInterests`), 428-434 and 513-519
(deduplicating `allFetchedSuggestions`) and 499-505 (preload filtering). -/
def sameInterest (item sug : Interest) : Bool :=
  (truthyStr item.id && truthyStr sug.id && item.id == sug.id)
    || item.name == sug.name

/-- JS `toLowerCase`, character-wise. -/
def strToLower (s : String) : String := ⟨s.data.map Char.toLower⟩

/-- The whitespace characters `trim` strips in the queries at hand. -/
def isSpaceChar (c : Char) : Bool :=
  c == ' ' || c == '\t' || c == '\n' || c == '\r'

/-- JS `trim`: drop surrounding whitespace. -/
def strTrim (s : String) : String :=
  ⟨((s.data.dropWhile isSpaceChar).reverse.dropWhile isSpaceChar).reverse⟩

/-- `normalize` of the spec: `query.toLowerCase().trim()` as `App.tsx`
computes every `normalizedQuery`. -/
def normalize (s : String) : String := strTrim (strToLower s)

/-- JS `s.startsWith(pat)`. -/
def strStartsWith (s pat : String) : Bool := pat.data.isPrefixOf s.data

/-- Does `pat` occur contiguously in the character list? -/
def charsInfixOf (pat : List Char) : List Char → Bool
  | [] => pat.isEmpty
  | c :: rest => pat.isPrefixOf (c :: rest) || charsInfixOf pat rest

/-- JS `s.includes(pat)`. -/
def strIncludes (s pat : String) : Bool := charsInfixOf pat.data s.data

/-- The match predicate applied to one suggestion against the normalized
query: the four-way `startsWith` / `includes` test over the lowercased
primary and secondary terms, repeated verbatim at lines 182-205, 233-255
and 333-344 of `App.tsx`. -/
def matchesQuery (normalizedQuery : String) (sug : Interest) : Bool :=
  let primaryText := strToLower sug.name
  let secondaryText :=
    match sug.secondary_term with
    | some t => strToLower t
    | none => ""
  strStartsWith primaryText normalizedQuery ||
    strStartsWith secondaryText normalizedQuery ||
    strIncludes primaryText normalizedQuery ||
    strIncludes secondaryText normalizedQuery

/-- The suggestions cache: a JS object used as a map from normalized query
to result list, modelled as an association list in key-insertion order. -/
abbrev Cache := List (String × List Interest)

/-- JS property read `cache[key]`: `none` models `undefined`. -/
def lookupCache : Cache → String → Option (List Interest)
  | [], _ => none
  | (k, v) :: rest, key => if k = key then some v else lookupCache rest key

/-- JS `{...prev, [key]: value}`: an existing key keeps its position, a
new key is appended at the end. -/
def putCache : Cache → String → List Interest → Cache
  | [], key, value => [(key, value)]
  | (k, v) :: rest, key, value =>
    if k = key then (key, value) :: rest else (k, v) :: putCache rest key value

/-- One insertion step of the stable length-descending sort modelling
`Object.keys(cache).sort((a, b) => b.length - a.length)`. -/
def insertKeyDesc (x : String) : List String → List String
  | [] => [x]
  | y :: ys =>
    if x.length ≤ y.length then y :: insertKeyDesc x ys else x :: y :: ys

/-- The cached keys in descending order of length (stable, as JS `sort`). -/
def sortKeysDesc : List String → List String
  | [] => []
  | x :: xs => insertKeyDesc x (sortKeysDesc xs)

/-- The React state of the `App` component read and written by the
resolution engine (presentation-only state is omitted). -/
structure AppState where
  suggestions : List Interest
  allFetchedSuggestions : List Interest
  loading : Bool
  error : Option String
  selectedInterests : List Interest
  suggestionsCache : Cache
  lastSearchResults : List Interest
  lastValidQuery : String
deriving DecidableEq

/-- The step-4 loop of `filterSuggestionsLocally` (lines 227-274): walk
the given keys (the cached keys, length-descending); on the first key the
query starts with whose cache entry filters to a non-empty list, return
that filtered list; report `none` when the walk is exhausted. -/
def scanAncestors (cache : Cache) (normalizedQuery : String) :
    List String → Option (List Interest)
  | [] => none
  | k :: ks =>
    if strStartsWith normalizedQuery k then
      let filteredResults :=
        ((lookupCache cache k).getD []).filter (matchesQuery normalizedQuery)
      if filteredResults.isEmpty then scanAncestors cache normalizedQuery ks
      else some filteredResults
    else scanAncestors cache normalizedQuery ks

/-- The state updates of a step-4 success (lines 259-271): show, promote
to the fallback and cache under the new query. -/
def ancestorResolve (normalizedQuery : String) (s : AppState) : Option AppState :=
  match scanAncestors s.suggestionsCache normalizedQuery
      (sortKeysDesc (s.suggestionsCache.map Prod.fst)) with
  | some filteredResults =>
    some { s with
      suggestions := filteredResults,
      lastSearchResults := filteredResults,
      lastValidQuery := normalizedQuery,
      suggestionsCache := putCache s.suggestionsCache normalizedQuery filteredResults }
  | none => none

/-- `filterSuggestionsLocally` (lines 150-280): `some s'` models a `true`
return together with the state updates performed on that path, `none` a
`false` return (that path performs no update). -/
def filterSuggestionsLocally (query : String) (s : AppState) : Option AppState :=
  if strTrim query = "" then
    some { s with suggestions := s.lastSearchResults }
  else
    let normalizedQuery := normalize query
    match lookupCache s.suggestionsCache normalizedQuery with
    | some results =>
      if results.isEmpty then some { s with suggestions := results }
      else
        some { s with
          suggestions := results,
          lastSearchResults := results,
          lastValidQuery := normalizedQuery }
    | none =>
      let lastQuery := normalize s.lastValidQuery
      if lastQuery != "" && strStartsWith normalizedQuery lastQuery
          && !s.lastSearchResults.isEmpty then
        let filteredResults :=
          s.lastSearchResults.filter (matchesQuery normalizedQuery)
        if !filteredResults.isEmpty then
          some { s with
            suggestions := filteredResults,
            suggestionsCache :=
              putCache s.suggestionsCache normalizedQuery filteredResults,
            lastSearchResults := filteredResults,
            lastValidQuery := normalizedQuery }
        else ancestorResolve normalizedQuery s
      else ancestorResolve normalizedQuery s

/-- Outcome of one resolution attempt: answered without the remote
fetcher, or a network request was issued from the given state. -/
inductive Resolution where
  | localDone (s : AppState)
  | network (s : AppState)
deriving DecidableEq

/-- The suppression heuristic's condition (lines 302-313). -/
def suppressionApplies (normalizedQuery : String) (s : AppState) : Bool :=
  let lastQuery := normalize s.lastValidQuery
  lastQuery != "" && strStartsWith normalizedQuery lastQuery
    && s.lastSearchResults.isEmpty
    && ((s.suggestionsCache.map Prod.fst).any fun cachedQuery =>
      strStartsWith normalizedQuery cachedQuery
        && ((lookupCache s.suggestionsCache cachedQuery).getD []).isEmpty
        && decide (normalizedQuery.length ≤ cachedQuery.length + 3))

/-- The pre-fetch parent-filter (lines 321-359): only the closest (longest)
cached parent key is tried; `none` falls through to the network call. -/
def parentFilterResolve (normalizedQuery : String) (s : AppState) : Option AppState :=
  let possibleParentQueries :=
    sortKeysDesc ((s.suggestionsCache.map Prod.fst).filter fun cachedQuery =>
      strStartsWith normalizedQuery cachedQuery)
  match possibleParentQueries with
  | [] => none
  | closestParentQuery :: _ =>
    let parentResults := (lookupCache s.suggestionsCache closestParentQuery).getD []
    if parentResults.isEmpty then none
    else
      let filteredResults := parentResults.filter (matchesQuery normalizedQuery)
      if filteredResults.isEmpty then none
      else
        some { s with
          suggestions := filteredResults,
          suggestionsCache :=
            putCache s.suggestionsCache normalizedQuery filteredResults,
          lastSearchResults := filteredResults,
          lastValidQuery := normalizedQuery,
          loading := false }

/-- `fetchSuggestions` up to the decision whether to issue the network
request (lines 282-362): `localDone` models the early returns, `network`
the state just after `setLoading(true); setError(null)` with the request
in flight. -/
def fetchSuggestions (query : String) (s : AppState) : Resolution :=
  if strTrim query = "" then
    .localDone { s with suggestions := s.lastSearchResults }
  else
    match filterSuggestionsLocally query s with
    | some s' => .localDone { s' with loading := false }
    | none =>
      let normalizedQuery := normalize query
      if suppressionApplies normalizedQuery s then
        .localDone { s with suggestions := [], loading := false }
      else
        match parentFilterResolve normalizedQuery s with
        | some s' => .localDone s'
        | none => .network { s with loading := true, error := none }

/-- The debounce timer's callback (lines 588-593): try the local filter,
fall back to `fetchSuggestions`. -/
def resolveQuery (query : String) (s : AppState) : Resolution :=
  match filterSuggestionsLocally query s with
  | some s' => .localDone s'
  | none => fetchSuggestions query s

/-- What `fetch` produced: a transport error, or a response with its HTTP
`ok` flag and, when the JSON body has a list-valued `autocomplete` field,
that list. -/
inductive FetchResponse where
  | transportError
  | http (ok : Bool) (autocomplete : Option (List Interest))
deriving DecidableEq

/-- The three continuations of the completion handler. -/
inductive FetchResult where
  | networkError
  | badFormat
  | success (items : List Interest)
deriving DecidableEq

/-- How the completion handler classifies the raw outcome (lines 383-396):
a thrown transport error and a non-2xx status both land in the `catch`
block; a 2xx body without a list-valued `autocomplete` field is the
bad-format return. -/
def interpretResponse : FetchResponse → FetchResult
  | .transportError => .networkError
  | .http false _ => .networkError
  | .http true none => .badFormat
  | .http true (some items) => .success items

/-- `name: suggestion.name || 'Unnamed Interest'` (line 403). -/
def formatSuggestion (sug : Interest) : Interest :=
  { sug with name := if sug.name = "" then "Unnamed Interest" else sug.name }

/-- The completion handler of `fetchSuggestions`' network request
(lines 383-452): classify, shape, filter out selected interests, cache,
merge into the corpus, and promote non-empty results to the fallback. -/
def applyFetchResult (query : String) (r : FetchResult) (s : AppState) : AppState :=
  match r with
  | .networkError =>
    { s with
      error := some "Failed to fetch suggestions. Please try again.",
      suggestions := [], loading := false }
  | .badFormat =>
    { s with
      error := some "Invalid response format from server",
      suggestions := [], loading := false }
  | .success items =>
    let normalizedQuery := normalize query
    let formattedSuggestions := items.map formatSuggestion
    let filteredSuggestions := formattedSuggestions.filter fun sug =>
      !s.selectedInterests.any fun item => sameInterest item sug
    let newSuggestions := filteredSuggestions.filter fun newItem =>
      !s.allFetchedSuggestions.any fun existingItem => sameInterest existingItem newItem
    let s' := { s with
      suggestionsCache :=
        putCache s.suggestionsCache normalizedQuery filteredSuggestions,
      suggestions := filteredSuggestions,
      allFetchedSuggestions := s.allFetchedSuggestions ++ newSuggestions,
      loading := false }
    if filteredSuggestions.isEmpty then s'
    else { s' with
      lastSearchResults := filteredSuggestions,
      lastValidQuery := normalizedQuery }

/-- The preload list (line 467). -/
def commonFirstLetters : List String :=
  ["a", "b", "c", "d", "e", "g", "m", "s", "t"]

/-- One iteration of the preload loop (lines 470-544) for `letter`:
`response = none` models a failed fetch, a non-2xx status or a malformed
body (all silently skipped); `some items` models a 2xx body's
`autocomplete` list.  Seeding of the fallback (lines 529-537) requires
`letter === commonFirstLetters[0]`. -/
def preloadStep (letter : String) (response : Option (List Interest))
    (s : AppState) : AppState :=
  if (lookupCache s.suggestionsCache letter).isSome then s
  else
    match response with
    | none => s
    | some items =>
      let formattedSuggestions := items.map formatSuggestion
      let filteredSuggestions := formattedSuggestions.filter fun sug =>
        !s.selectedInterests.any fun item => sameInterest item sug
      let newSuggestions := filteredSuggestions.filter fun newItem =>
        !s.allFetchedSuggestions.any fun existingItem => sameInterest existingItem newItem
      let s' := { s with
        allFetchedSuggestions := s.allFetchedSuggestions ++ newSuggestions,
        suggestionsCache := putCache s.suggestionsCache letter filteredSuggestions }
      if letter = commonFirstLetters.headD ""
          && !filteredSuggestions.isEmpty && s.lastSearchResults.isEmpty then
        { s' with
          lastSearchResults := filteredSuggestions,
          lastValidQuery := letter }
      else s'

/-- The delay selection of the debounced-search effect (lines 581-586):
note that the 100ms test reads the RAW `searchQuery.length`. -/
def debounceDelay (searchQuery lastValidQuery : String) : Nat :=
  if searchQuery.length ≤ 1 then 100
  else
    let lastQuery := normalize lastValidQuery
    if lastQuery != "" && strStartsWith (normalize searchQuery) lastQuery then 800
    else 300

/-- What the spec's words in §4.5 prescribe for the delay (normalized
length for the 100ms test, strict extension for the 800ms test), for
comparison with `debounceDelay`. -/
def specDebounceDelay (searchQuery lastValidQuery : String) : Nat :=
  if (normalize searchQuery).length ≤ 1 then 100
  else if lastValidQuery != "" && strStartsWith (normalize searchQuery) lastValidQuery
      && normalize searchQuery != lastValidQuery then 800
  else 300

/-- The debounced-search effect (lines 553-599) up to timer scheduling:
the scheduled delay (`none` when the early local-filter path returns
without scheduling) together with the state after any immediate
filtering. -/
def debounceEffect (searchQuery : String) (s : AppState) : Option Nat × AppState :=
  let normalizedQuery := normalize searchQuery
  let lastQuery := normalize s.lastValidQuery
  if lastQuery != "" && strStartsWith normalizedQuery lastQuery
      && !s.lastSearchResults.isEmpty then
    match filterSuggestionsLocally searchQuery s with
    | some s' =>
      if decide (normalizedQuery.length > lastQuery.length + 2) then (none, s')
      else (some (debounceDelay searchQuery s.lastValidQuery), s')
    | none => (some (debounceDelay searchQuery s.lastValidQuery), s)
  else (some (debounceDelay searchQuery s.lastValidQuery), s)

/-- `handleRemoveInterest` (lines 615-623). -/
def removeInterest (interest : Interest) (l : List Interest) : List Interest :=
  l.filter fun item =>
    (truthyStr item.id && truthyStr interest.id && item.id != interest.id)
      || item.name != interest.name

/-- The events that mutate the modelled state. -/
inductive Event where
  | queryChange (query : String)
  | timerFire (query : String)
  | fetchArrives (query : String) (r : FetchResult)
  | preloadArrives (letter : String) (response : Option (List Interest))
  | selectInterest (i : Interest)
  | removeSelected (i : Interest)
deriving DecidableEq

/-- The state a resolution left behind. -/
def resolutionState : Resolution → AppState
  | .localDone s => s
  | .network s => s

/-- One state transition of the modelled controller. -/
def stepEvent : Event → AppState → AppState
  | .queryChange q, s => (debounceEffect q s).2
  | .timerFire q, s => resolutionState (resolveQuery q s)
  | .fetchArrives q r, s => applyFetchResult q r s
  | .preloadArrives l r, s => preloadStep l r s
  | .selectInterest i, s => { s with selectedInterests := s.selectedInterests ++ [i] }
  | .removeSelected i, s =>
    { s with selectedInterests := removeInterest i s.selectedInterests }

/-! ### Basic properties of the cache and of the key sort -/

theorem lookupCache_putCache_self (c : Cache) (k : String) (v : List Interest) :
    lookupCache (putCache c k v) k = some v := by
  induction c with
  | nil => simp [putCache, lookupCache]
  | cons kv rest ih =>
    obtain ⟨k', v'⟩ := kv
    by_cases h : k' = k
    · simp [putCache, lookupCache, h]
    · simp [putCache, lookupCache, h, ih]

theorem mem_insertKeyDesc {x a : String} {l : List String} :
    a ∈ insertKeyDesc x l ↔ a = x ∨ a ∈ l := by
  induction l with
  | nil => simp [insertKeyDesc]
  | cons y ys ih =>
    rw [insertKeyDesc]
    by_cases h : x.length ≤ y.length
    · rw [if_pos h]
      simp only [List.mem_cons, ih]
      tauto
    · rw [if_neg h]
      simp only [List.mem_cons]

theorem mem_sortKeysDesc {a : String} {l : List String} :
    a ∈ sortKeysDesc l ↔ a ∈ l := by
  induction l with
  | nil => simp [sortKeysDesc]
  | cons x xs ih =>
    rw [sortKeysDesc]
    simp only [mem_insertKeyDesc, ih, List.mem_cons]

theorem pairwise_insertKeyDesc {x : String} {l : List String}
    (h : l.Pairwise (fun a b => b.length ≤ a.length)) :
    (insertKeyDesc x l).Pairwise (fun a b => b.length ≤ a.length) := by
  induction l with
  | nil => simp [insertKeyDesc]
  | cons y ys ih =>
    rw [List.pairwise_cons] at h
    rw [insertKeyDesc]
    by_cases hle : x.length ≤ y.length
    · rw [if_pos hle, List.pairwise_cons]
      refine ⟨fun b hb => ?_, ih h.2⟩
      rcases mem_insertKeyDesc.mp hb with rfl | hb
      · exact hle
      · exact h.1 b hb
    · rw [if_neg hle, List.pairwise_cons]
      refine ⟨fun b hb => ?_, List.pairwise_cons.mpr h⟩
      rcases List.mem_cons.mp hb with rfl | hb
      · exact Nat.le_of_lt (Nat.lt_of_not_le hle)
      · exact Nat.le_trans (h.1 b hb) (Nat.le_of_lt (Nat.lt_of_not_le hle))

theorem sorted_sortKeysDesc (l : List String) :
    (sortKeysDesc l).Pairwise (fun a b => b.length ≤ a.length) := by
  induction l with
  | nil => simp [sortKeysDesc]
  | cons x xs ih =>
    rw [sortKeysDesc]
    exact pairwise_insertKeyDesc ih

/-! ### Properties of the step-4 ancestor scan -/

theorem scanAncestors_ne_nil {cache : Cache} {q : String} {l : List String}
    {r : List Interest} (h : scanAncestors cache q l = some r) : r ≠ [] := by
  induction l with
  | nil => simp [scanAncestors] at h
  | cons k ks ih =>
    rw [scanAncestors] at h
    by_cases hs : strStartsWith q k = true
    · rw [if_pos hs] at h
      by_cases he : (((lookupCache cache k).getD []).filter (matchesQuery q)).isEmpty = true
      · rw [if_pos he] at h
        exact ih h
      · rw [if_neg he] at h
        cases h
        simpa [List.isEmpty_iff] using he
    · rw [if_neg hs] at h
      exact ih h

theorem scanAncestors_eq_none_iff (cache : Cache) (q : String) (l : List String) :
    scanAncestors cache q l = none ↔
      ∀ k ∈ l, strStartsWith q k = true →
        ((lookupCache cache k).getD []).filter (matchesQuery q) = [] := by
  induction l with
  | nil => simp [scanAncestors]
  | cons k ks ih =>
    rw [scanAncestors]
    by_cases hs : strStartsWith q k = true
    · rw [if_pos hs]
      by_cases he : (((lookupCache cache k).getD []).filter (matchesQuery q)).isEmpty = true
      · rw [if_pos he, ih]
        rw [List.isEmpty_iff] at he
        rw [List.forall_mem_cons]
        exact ⟨fun ht => ⟨fun _ => he, ht⟩, fun hp => hp.2⟩
      · rw [if_neg he]
        rw [List.isEmpty_iff] at he
        rw [List.forall_mem_cons]
        exact ⟨fun h => absurd h (by simp), fun hp => absurd (hp.1 hs) he⟩
    · rw [if_neg hs, ih]
      rw [List.forall_mem_cons]
      exact ⟨fun ht => ⟨fun hcontra => absurd hcontra hs, ht⟩, fun hp => hp.2⟩

theorem scanAncestors_some_spec {cache : Cache} {q : String} {l : List String}
    (hsort : l.Pairwise (fun a b => b.length ≤ a.length)) {r : List Interest}
    (h : scanAncestors cache q l = some r) :
    ∃ k, k ∈ l ∧ strStartsWith q k = true ∧
      r = ((lookupCache cache k).getD []).filter (matchesQuery q) ∧
      ∀ k' ∈ l, strStartsWith q k' = true →
        ((lookupCache cache k').getD []).filter (matchesQuery q) ≠ [] →
        k'.length ≤ k.length := by
  induction l with
  | nil => simp [scanAncestors] at h
  | cons k ks ih =>
    rw [List.pairwise_cons] at hsort
    rw [scanAncestors] at h
    by_cases hs : strStartsWith q k = true
    · rw [if_pos hs] at h
      by_cases he : (((lookupCache cache k).getD []).filter (matchesQuery q)).isEmpty = true
      · rw [if_pos he] at h
        rw [List.isEmpty_iff] at he
        obtain ⟨k₀, hk₀, hsw, hr, hmax⟩ := ih hsort.2 h
        refine ⟨k₀, List.mem_cons_of_mem _ hk₀, hsw, hr, fun k' hk' hsw' hne' => ?_⟩
        rcases List.mem_cons.mp hk' with rfl | hk'
        · exact absurd he hne'
        · exact hmax k' hk' hsw' hne'
      · rw [if_neg he] at h
        cases h
        refine ⟨k, List.mem_cons_self k ks, hs, rfl, fun k' hk' hsw' hne' => ?_⟩
        rcases List.mem_cons.mp hk' with rfl | hk'
        · exact Nat.le_refl _
        · exact hsort.1 k' hk'
    · rw [if_neg hs] at h
      obtain ⟨k₀, hk₀, hsw, hr, hmax⟩ := ih hsort.2 h
      refine ⟨k₀, List.mem_cons_of_mem _ hk₀, hsw, hr, fun k' hk' hsw' hne' => ?_⟩
      rcases List.mem_cons.mp hk' with rfl | hk'
      · exact absurd hsw' hs
      · exact hmax k' hk' hsw' hne'

/-! ### The fallback result set never reverts to empty

Every path that assigns `lastSearchResults` is guarded by a non-emptiness
test, so each transformer either leaves the field alone or makes it
non-empty. -/

theorem ancestorResolve_lastResults {q : String} {s s' : AppState}
    (h : ancestorResolve q s = some s') : s'.lastSearchResults ≠ [] := by
  unfold ancestorResolve at h
  split at h
  · rename_i filteredResults hscan
    cases h
    exact scanAncestors_ne_nil hscan
  · exact absurd h (by simp)

theorem parentFilterResolve_lastResults {q : String} {s s' : AppState}
    (h : parentFilterResolve q s = some s') : s'.lastSearchResults ≠ [] := by
  unfold parentFilterResolve at h
  dsimp only at h
  split at h
  · exact absurd h (by simp)
  · split at h
    · exact absurd h (by simp)
    · split at h
      · exact absurd h (by simp)
      · rename_i hne
        cases h
        simpa [List.isEmpty_iff] using hne

theorem filterSuggestionsLocally_lastResults {q : String} {s s' : AppState}
    (h : filterSuggestionsLocally q s = some s') :
    s'.lastSearchResults = s.lastSearchResults ∨ s'.lastSearchResults ≠ [] := by
  unfold filterSuggestionsLocally at h
  dsimp only at h
  split at h
  · cases h
    left; rfl
  · split at h
    · split at h
      · cases h
        left; rfl
      · rename_i results _ hne
        cases h
        right
        simpa [List.isEmpty_iff] using hne
    · split at h
      · split at h
        · rename_i hne
          cases h
          right
          simpa [List.isEmpty_iff] using hne
        · exact Or.inr (ancestorResolve_lastResults h)
      · exact Or.inr (ancestorResolve_lastResults h)

theorem fetchSuggestions_lastResults (q : String) (s : AppState) :
    (resolutionState (fetchSuggestions q s)).lastSearchResults = s.lastSearchResults ∨
      (resolutionState (fetchSuggestions q s)).lastSearchResults ≠ [] := by
  unfold fetchSuggestions
  dsimp only
  split
  · left; rfl
  · split
    · rename_i s' hl
      simpa [resolutionState] using filterSuggestionsLocally_lastResults hl
    · split
      · left; rfl
      · split
        · rename_i s' hp
          right
          simpa [resolutionState] using parentFilterResolve_lastResults hp
        · left; rfl

theorem resolveQuery_lastResults (q : String) (s : AppState) :
    (resolutionState (resolveQuery q s)).lastSearchResults = s.lastSearchResults ∨
      (resolutionState (resolveQuery q s)).lastSearchResults ≠ [] := by
  unfold resolveQuery
  cases hl : filterSuggestionsLocally q s with
  | some s' => simpa [resolutionState] using filterSuggestionsLocally_lastResults hl
  | none => exact fetchSuggestions_lastResults q s

theorem applyFetchResult_lastResults (q : String) (r : FetchResult) (s : AppState) :
    (applyFetchResult q r s).lastSearchResults = s.lastSearchResults ∨
      (applyFetchResult q r s).lastSearchResults ≠ [] := by
  cases r with
  | networkError => left; rfl
  | badFormat => left; rfl
  | success items =>
    unfold applyFetchResult
    dsimp only
    split
    · left; rfl
    · rename_i hne
      right
      simpa [List.isEmpty_iff] using hne

theorem preloadStep_lastResults (letter : String) (r : Option (List Interest))
    (s : AppState) :
    (preloadStep letter r s).lastSearchResults = s.lastSearchResults ∨
      (preloadStep letter r s).lastSearchResults ≠ [] := by
  unfold preloadStep
  dsimp only
  split
  · left; rfl
  · split
    · left; rfl
    · split
      · rename_i hcond
        right
        simp only [Bool.and_eq_true, List.isEmpty_iff] at hcond
        simpa [List.isEmpty_iff] using hcond.1.2
      · left; rfl

theorem debounceEffect_lastResults (q : String) (s : AppState) :
    (debounceEffect q s).2.lastSearchResults = s.lastSearchResults ∨
      (debounceEffect q s).2.lastSearchResults ≠ [] := by
  unfold debounceEffect
  dsimp only
  by_cases hg : (normalize s.lastValidQuery != ""
      && strStartsWith (normalize q) (normalize s.lastValidQuery)
      && !s.lastSearchResults.isEmpty) = true
  · rw [if_pos hg]
    cases hl : filterSuggestionsLocally q s with
    | some s' =>
      dsimp only
      have hres := filterSuggestionsLocally_lastResults hl
      by_cases hc : decide ((normalize q).length > (normalize s.lastValidQuery).length + 2) = true
      · rw [if_pos hc]
        exact hres
      · rw [if_neg hc]
        exact hres
    | none =>
      left; rfl
  · rw [if_neg hg]
    left; rfl

theorem stepEvent_lastResults (e : Event) (s : AppState) :
    (stepEvent e s).lastSearchResults = s.lastSearchResults ∨
      (stepEvent e s).lastSearchResults ≠ [] := by
  cases e with
  | queryChange q => exact debounceEffect_lastResults q s
  | timerFire q => exact resolveQuery_lastResults q s
  | fetchArrives q r => exact applyFetchResult_lastResults q r s
  | preloadArrives l r => exact preloadStep_lastResults l r s
  | selectInterest i => left; rfl
  | removeSelected i => left; rfl

/-- The Bool-versus-Prop bridge for the delay selection. -/
theorem debounceDelay_eq (q lv : String) :
    debounceDelay q lv =
      if q.length ≤ 1 then 100
      else if normalize lv ≠ "" ∧ strStartsWith (normalize q) (normalize lv) = true then 800
      else 300 := by
  unfold debounceDelay
  dsimp only
  by_cases h1 : q.length ≤ 1
  · rw [if_pos h1, if_pos h1]
  · rw [if_neg h1, if_neg h1]
    by_cases h2 : normalize lv ≠ "" ∧ strStartsWith (normalize q) (normalize lv) = true
    · rw [if_pos h2]
      have hb : (normalize lv != "" && strStartsWith (normalize q) (normalize lv)) = true := by
        simp only [Bool.and_eq_true, bne_iff_ne]
        exact h2
      rw [if_pos hb]
    · rw [if_neg h2]
      have hb : ¬(normalize lv != "" && strStartsWith (normalize q) (normalize lv)) = true := by
        simp only [Bool.and_eq_true, bne_iff_ne]
        exact h2
      rw [if_neg hb]

/-! ### Concrete interests and states used in the closed theorems -/

/-- The state at session start: everything empty. -/
def emptyState : AppState := ⟨[], [], false, none, [], [], [], ""⟩

def musicI : Interest := ⟨some "1", "Music", none, none, none⟩

def moviesI : Interest := ⟨some "2", "Movies", none, none, none⟩

def abI : Interest := ⟨none, "ab", none, none, none⟩

def zzI : Interest := ⟨none, "zz", none, none, none⟩

def trexI : Interest := ⟨some "7", "Trex", none, none, none⟩

def abcdI : Interest := ⟨none, "abcd", none, none, none⟩

def sel42 : Interest := ⟨some "42", "Chess", none, none, none⟩

def otherI : Interest := ⟨some "99", "Go", none, none, none⟩

def idA : Interest := ⟨some "1", "X", none, none, none⟩

def idB : Interest := ⟨some "2", "X", none, none, none⟩

/-- A reachable state: "ab" was fetched and returned `[zzI]`, then "a" was
resolved from cache to `[abI]` and promoted to the fallback. -/
def c1s : AppState :=
  { emptyState with
    suggestionsCache := [("a", [abI]), ("ab", [zzI])],
    lastValidQuery := "a", lastSearchResults := [abI] }

/-- The spec's §8 scenario: "m" was fetched and returned Music and Movies. -/
def c1ws : AppState :=
  { emptyState with
    suggestionsCache := [("m", [musicI, moviesI])],
    lastValidQuery := "m", lastSearchResults := [musicI, moviesI] }

def c2ws : AppState :=
  { emptyState with lastSearchResults := [musicI], lastValidQuery := "m" }

/-- The spec's suppression scenario, plus a cached "t" entry that still
matches longer queries. -/
def c3cex : AppState :=
  { emptyState with
    suggestionsCache := [("tr", []), ("t", [trexI])],
    lastValidQuery := "tr", lastSearchResults := [] }

/-- Exactly the spec's suppression-bound scenario:
`lastValidQuery = "tr"`, empty fallback, cache entry `"tr" -> []`. -/
def trSuppressState : AppState :=
  { emptyState with
    suggestionsCache := [("tr", [])],
    lastValidQuery := "tr", lastSearchResults := [] }

/-- The Chess interest (id "42") has been selected, and the cache entry for
"c" still contains it. -/
def c4s : AppState :=
  { emptyState with
    selectedInterests := [sel42],
    suggestionsCache := [("c", [sel42])] }

def c4ws : AppState := { emptyState with selectedInterests := [sel42] }

def c7s : AppState :=
  { emptyState with suggestionsCache := [("a", [abcdI]), ("ab", [zzI])] }

def c10s : AppState := { emptyState with selectedInterests := [sel42] }

/-! ### The claims -/

/-- C1 (amended): if `lastValidQuery` is a non-empty normalized query, a
string-prefix of the non-empty normalized query `q2`, `lastValidResults` is
non-empty, its subset matching `q2` under the §4.3 predicate is non-empty,
and the cache holds no entry for `q2` itself, then resolving `q2` completes
locally (the remote fetcher is never invoked), returns exactly that matching
subset, writes it into the cache under `q2`, and promotes it to the new
`lastValidQuery`/`lastValidResults`.  (The claim as frozen omits the
no-exact-cache-entry proviso; an exact hit takes precedence and returns the
stored entry verbatim, see the counterexample.) -/
theorem refinementResolvesLocally (q2 : String) (s : AppState)
    (htrim : strTrim q2 ≠ "")
    (hnorm : normalize q2 = q2)
    (hlvnorm : normalize s.lastValidQuery = s.lastValidQuery)
    (hlv : s.lastValidQuery ≠ "")
    (hpre : strStartsWith q2 s.lastValidQuery = true)
    (hS : s.lastSearchResults ≠ [])
    (hmiss : lookupCache s.suggestionsCache q2 = none)
    (hfil : s.lastSearchResults.filter (matchesQuery q2) ≠ []) :
    resolveQuery q2 s = .localDone { s with
      suggestions := s.lastSearchResults.filter (matchesQuery q2),
      suggestionsCache := putCache s.suggestionsCache q2
        (s.lastSearchResults.filter (matchesQuery q2)),
      lastSearchResults := s.lastSearchResults.filter (matchesQuery q2),
      lastValidQuery := q2 } := by
  have hl : filterSuggestionsLocally q2 s = some { s with
      suggestions := s.lastSearchResults.filter (matchesQuery q2),
      suggestionsCache := putCache s.suggestionsCache q2
        (s.lastSearchResults.filter (matchesQuery q2)),
      lastSearchResults := s.lastSearchResults.filter (matchesQuery q2),
      lastValidQuery := q2 } := by
    unfold filterSuggestionsLocally
    dsimp only
    rw [if_neg htrim, hnorm, hlvnorm, hmiss]
    dsimp only
    have hcond : (s.lastValidQuery != "" && strStartsWith q2 s.lastValidQuery
        && !s.lastSearchResults.isEmpty) = true := by
      simp only [Bool.and_eq_true, bne_iff_ne, Bool.not_eq_true', List.isEmpty_eq_false]
      exact ⟨⟨hlv, hpre⟩, hS⟩
    rw [if_pos hcond]
    have hcond2 : (!(s.lastSearchResults.filter (matchesQuery q2)).isEmpty) = true := by
      simp only [Bool.not_eq_true', List.isEmpty_eq_false]
      exact hfil
    rw [if_pos hcond2]
  unfold resolveQuery
  rw [hl]

/-- C1 witness: in the spec's own scenario ("m" returned Music and Movies),
typing "mu" resolves locally to `[Music]`, caches it under "mu" and promotes
it. -/
theorem refinementResolvesLocally_witness :
    resolveQuery "mu" c1ws = .localDone { c1ws with
      suggestions := c1ws.lastSearchResults.filter (matchesQuery "mu"),
      suggestionsCache := putCache c1ws.suggestionsCache "mu"
        (c1ws.lastSearchResults.filter (matchesQuery "mu")),
      lastSearchResults := c1ws.lastSearchResults.filter (matchesQuery "mu"),
      lastValidQuery := "mu" } :=
  refinementResolvesLocally "mu" c1ws (by decide) (by decide) (by decide)
    (by decide) (by decide) (by decide) (by decide) (by decide)

/-- C1 counterexample: in `c1s`, `lastValidQuery = "a"` is a non-empty prefix
of "ab", `lastValidResults = [abI]` is non-empty and its matching subset for
"ab" is `[abI]` (non-empty) — yet resolving "ab" returns the stored exact
cache entry `[zzI]`, not that subset, and promotes `[zzI]` instead. -/
theorem refinementResolvesLocally_counterexample :
    c1s.lastValidQuery = "a" ∧ c1s.lastSearchResults = [abI] ∧
    strStartsWith "ab" "a" = true ∧
    c1s.lastSearchResults.filter (matchesQuery "ab") = [abI] ∧
    resolveQuery "ab" c1s = .localDone { c1s with
      suggestions := [zzI], lastSearchResults := [zzI], lastValidQuery := "ab" } ∧
    ([zzI] : List Interest) ≠ [abI] := by decide

/-- C2: a query whose trimmed form is empty resolves locally to
`lastSearchResults` verbatim in every state (so the answer depends neither on
the cache nor on the fetcher), and no transition of the controller ever
replaces a non-empty `lastSearchResults` with an empty one — once any
non-empty result set was obtained, the empty query never shows nothing. -/
theorem emptyQueryShowsLastValidResults :
    (∀ q s, strTrim q = "" →
      resolveQuery q s = .localDone { s with suggestions := s.lastSearchResults }) ∧
    (∀ e s, s.lastSearchResults ≠ [] → (stepEvent e s).lastSearchResults ≠ []) := by
  constructor
  · intro q s hq
    have hl : filterSuggestionsLocally q s
        = some { s with suggestions := s.lastSearchResults } := by
      unfold filterSuggestionsLocally
      rw [if_pos hq]
    unfold resolveQuery
    rw [hl]
  · intro e s hne
    rcases stepEvent_lastResults e s with heq | hsome
    · rw [heq]
      exact hne
    · exact hsome

/-- C2 witness: clearing the query in `c2ws` shows `[musicI]` again, and a
resolution that goes to the network keeps the fallback non-empty. -/
theorem emptyQueryShowsLastValidResults_witness :
    resolveQuery "" c2ws = .localDone { c2ws with suggestions := c2ws.lastSearchResults } ∧
    (stepEvent (.timerFire "zz") c2ws).lastSearchResults ≠ [] :=
  ⟨emptyQueryShowsLastValidResults.1 "" c2ws (by decide),
    emptyQueryShowsLastValidResults.2 (.timerFire "zz") c2ws (by decide)⟩

/-- C3 (amended): when local resolution has failed (`filterSuggestionsLocally`
returned `false`) and the suppression condition holds — `lastValidQuery` a
non-empty prefix of the normalized query, empty `lastValidResults`, and some
cached key `k` with the query starting with `k`, `cache[k]` empty and the
query at most 3 characters longer — the fetcher is not invoked and the
resolution result is the empty set; and in the spec's own scenario the
5-character extension "trexxxx" over `"tr" -> []` is not suppressed and
reaches the fetcher.  (The claim as frozen omits that local resolution must
have failed first; a cached ancestor can still produce a non-empty local
answer, see the counterexample.) -/
theorem suppressionSkipsFetch (q : String) (s : AppState)
    (htrim : strTrim q ≠ "")
    (hnorm : normalize q = q)
    (hlocal : filterSuggestionsLocally q s = none)
    (hsup : suppressionApplies q s = true) :
    resolveQuery q s = .localDone { s with suggestions := [], loading := false } ∧
    resolveQuery "trexxxx" trSuppressState
      = .network { trSuppressState with loading := true, error := none } := by
  constructor
  · unfold resolveQuery
    rw [hlocal]
    unfold fetchSuggestions
    dsimp only
    rw [if_neg htrim, hlocal]
    dsimp only
    rw [hnorm, if_pos hsup]
  · decide

/-- C3 witness: in the spec's suppression-bound scenario, "trex" (2 extra
characters over "tr") skips the network call and resolves to `[]`, while
"trexxxx" reaches the fetcher. -/
theorem suppressionSkipsFetch_witness :
    resolveQuery "trex" trSuppressState
      = .localDone { trSuppressState with suggestions := [], loading := false } ∧
    resolveQuery "trexxxx" trSuppressState
      = .network { trSuppressState with loading := true, error := none } :=
  suppressionSkipsFetch "trex" trSuppressState (by decide) (by decide)
    (by decide) (by decide)

/-- C3 counterexample: `c3cex` satisfies every condition the claim states for
"trex" (`lastValidQuery = "tr"` a non-empty prefix, empty `lastValidResults`,
cached `"tr" -> []` within 3 characters) — yet resolution returns the
NON-empty set `[trexI]`, filtered from the cached ancestor "t". -/
theorem suppressionSkipsFetch_counterexample :
    c3cex.lastValidQuery = "tr" ∧ c3cex.lastSearchResults = [] ∧
    strStartsWith "trex" "tr" = true ∧
    lookupCache c3cex.suggestionsCache "tr" = some [] ∧
    "trex".length ≤ "tr".length + 3 ∧
    resolveQuery "trex" c3cex = .localDone { c3cex with
      suggestions := [trexI], lastSearchResults := [trexI], lastValidQuery := "trex",
      suggestionsCache := putCache c3cex.suggestionsCache "trex" [trexI] } ∧
    ([trexI] : List Interest) ≠ [] := by decide

/-- C4 (amended): only the REMOTE path excludes selected interests: every
item in the suggestion list produced by a successful fetch completion fails
the `sameInterest` test against every selected interest (in particular no
item identified with a selected id "42" appears).  Local resolution performs
no such filtering and can return a cache entry still containing the selected
interest, see the counterexample. -/
theorem remoteResolutionExcludesSelected (q : String) (s : AppState)
    (items : List Interest) (sel item : Interest)
    (hsel : sel ∈ s.selectedInterests)
    (hmem : item ∈ (applyFetchResult q (.success items) s).suggestions) :
    sameInterest sel item = false := by
  unfold applyFetchResult at hmem
  dsimp only at hmem
  split at hmem <;>
    (simp only [List.mem_filter, Bool.not_eq_true', List.any_eq_false] at hmem
     simpa using hmem.2 sel hsel)

/-- C4 witness: with Chess (id "42") selected, the fetched candidate Go
survives and indeed differs from the selected interest. -/
theorem remoteResolutionExcludesSelected_witness :
    sameInterest sel42 otherI = false :=
  remoteResolutionExcludesSelected "g" c4ws [otherI] sel42 otherI
    (by decide) (by decide)

/-- C4 counterexample: Chess (id "42") is selected, the cache entry for "c"
still contains it, and LOCAL resolution of "c" returns it — the claim's
"local as well as remote" exclusion fails on the local path. -/
theorem remoteResolutionExcludesSelected_counterexample :
    c4s.selectedInterests = [sel42] ∧ sel42.id = some "42" ∧
    lookupCache c4s.suggestionsCache "c" = some [sel42] ∧
    resolveQuery "c" c4s = .localDone { c4s with
      suggestions := [sel42], lastSearchResults := [sel42], lastValidQuery := "c" } := by
  decide

/-- C5 (amended): whenever the debounced-search effect schedules a timer,
the delay is 100ms when the RAW query length is at most 1 character, 800ms
when the normalized `lastValidQuery` is non-empty and the normalized query
starts with it (equality included, not only strict extension), and 300ms
otherwise; the early local-filter path may schedule no timer at all.  (The
claim as frozen reads the NORMALIZED length for the 100ms test and requires
a strict extension for 800ms; both disagree with the code, see the
counterexample.) -/
theorem debounceDelaySelection (q : String) (s : AppState) :
    (debounceEffect q s).1 = none ∨
    (debounceEffect q s).1 = some (
      if q.length ≤ 1 then 100
      else if normalize s.lastValidQuery ≠ "" ∧
          strStartsWith (normalize q) (normalize s.lastValidQuery) = true then 800
      else 300) := by
  have hd := debounceDelay_eq q s.lastValidQuery
  unfold debounceEffect
  dsimp only
  split
  · cases hl : filterSuggestionsLocally q s with
    | some s' =>
      dsimp only
      split
      · exact Or.inl rfl
      · right
        rw [hd]
    | none =>
      right
      rw [hd]
  · right
    rw [hd]

/-- C5 counterexample: for the raw query `" a "` (length 3, normalized "a" of
length 1) with `lastValidQuery = "a"`, the code selects 800ms while the
claim's rule (normalized length ≤ 1) selects 100ms. -/
theorem debounceDelaySelection_counterexample :
    normalize " a " = "a" ∧ (normalize " a ").length = 1 ∧
    debounceDelay " a " "a" = 800 ∧ specDebounceDelay " a " "a" = 100 ∧
    debounceDelay " a " "a" ≠ specDebounceDelay " a " "a" := by decide

/-- C6 (amended): the `sameInterest` predicate holds exactly when both ids
are present, non-empty and equal, OR the names are equal under plain string
equality — the name clause applies regardless of id presence, so two
Interests with distinct ids but equal names ARE identified (the frozen claim
denies this, see the counterexample). -/
theorem sameInterest_characterization (a b : Interest) :
    sameInterest a b = true ↔
      ((∃ i, a.id = some i ∧ b.id = some i ∧ i ≠ "") ∨ a.name = b.name) := by
  unfold sameInterest truthyStr
  rcases ha : a.id with _ | ia <;> rcases hb : b.id with _ | ib <;>
    (simp [ha, hb, bne_iff_ne, beq_iff_eq]; try aesop)

/-- C6 counterexample: two Interests carrying the distinct ids "1" and "2"
but the same name are identified by the code's predicate. -/
theorem sameInterest_counterexample :
    idA.id = some "1" ∧ idB.id = some "2" ∧ (("1" : String) ≠ "2") ∧
    idA.name = idB.name ∧ sameInterest idA idB = true := by decide

/-- C7 (amended): the step-4 ancestor walk consults EVERY stored key that is
a prefix of the normalized query, in decreasing length order: it misses
(CACHE_MISS) exactly when all such ancestors filter to empty under the match
predicate, and on success it returns the non-empty filtered entry of the
LONGEST ancestor whose filtered entry is non-empty — a shorter ancestor can
answer after the longest one filtered to empty (the frozen claim required an
immediate CACHE_MISS in that case, see the counterexample). -/
theorem ancestorScanSpec (nq : String) (cache : Cache) :
    (scanAncestors cache nq (sortKeysDesc (cache.map Prod.fst)) = none ↔
      ∀ k ∈ cache.map Prod.fst, strStartsWith nq k = true →
        ((lookupCache cache k).getD []).filter (matchesQuery nq) = []) ∧
    (∀ r, scanAncestors cache nq (sortKeysDesc (cache.map Prod.fst)) = some r →
      ∃ k, k ∈ cache.map Prod.fst ∧ strStartsWith nq k = true ∧
        r = ((lookupCache cache k).getD []).filter (matchesQuery nq) ∧ r ≠ [] ∧
        ∀ k' ∈ cache.map Prod.fst, strStartsWith nq k' = true →
          ((lookupCache cache k').getD []).filter (matchesQuery nq) ≠ [] →
          k'.length ≤ k.length) := by
  constructor
  · rw [scanAncestors_eq_none_iff]
    exact ⟨fun h k hk hs => h k (mem_sortKeysDesc.mpr hk) hs,
      fun h k hk hs => h k (mem_sortKeysDesc.mp hk) hs⟩
  · intro r hr
    obtain ⟨k, hk, hs, hrfl, hmax⟩ :=
      scanAncestors_some_spec (sorted_sortKeysDesc _) hr
    exact ⟨k, mem_sortKeysDesc.mp hk, hs, hrfl, scanAncestors_ne_nil hr,
      fun k' hk' hs' hne' => hmax k' (mem_sortKeysDesc.mpr hk') hs' hne'⟩

/-- C7 witness: in `c7s` the walk for "abc" succeeds with `[abcdI]`, taken
from the longest prefix key whose filtered entry is non-empty. -/
theorem ancestorScanSpec_witness :
    ∃ k, k ∈ c7s.suggestionsCache.map Prod.fst ∧ strStartsWith "abc" k = true ∧
      ([abcdI] : List Interest)
        = ((lookupCache c7s.suggestionsCache k).getD []).filter (matchesQuery "abc") ∧
      ([abcdI] : List Interest) ≠ [] ∧
      ∀ k' ∈ c7s.suggestionsCache.map Prod.fst, strStartsWith "abc" k' = true →
        ((lookupCache c7s.suggestionsCache k').getD []).filter (matchesQuery "abc") ≠ [] →
        k'.length ≤ k.length :=
  (ancestorScanSpec "abc" c7s.suggestionsCache).2 [abcdI] (by decide)

/-- C7 counterexample: for query "abc" the longest cached prefix key "ab"
filters to empty, yet local resolution still succeeds with the shorter
ancestor "a" — it does not report CACHE_MISS. -/
theorem ancestorScanSpec_counterexample :
    lookupCache c7s.suggestionsCache "abc" = none ∧
    ((lookupCache c7s.suggestionsCache "ab").getD []).filter (matchesQuery "abc") = [] ∧
    "ab".length > "a".length ∧
    filterSuggestionsLocally "abc" c7s = some { c7s with
      suggestions := [abcdI], lastSearchResults := [abcdI], lastValidQuery := "abc",
      suggestionsCache := putCache c7s.suggestionsCache "abc" [abcdI] } := by decide

/-- C8: a transport error and a non-2xx response land in the same catch
handler, which sets the user-facing error message, empties the suggestion
list, clears the loading flag and — as the record equality shows — leaves
the cache, `lastValidQuery`, `lastValidResults`, the selection and the
corpus untouched; the model retries nothing. -/
theorem remoteFailureHandling (q : String) (s : AppState)
    (body : Option (List Interest)) :
    applyFetchResult q (interpretResponse .transportError) s
      = { s with error := some "Failed to fetch suggestions. Please try again.",
                 suggestions := [], loading := false } ∧
    applyFetchResult q (interpretResponse (.http false body)) s
      = { s with error := some "Failed to fetch suggestions. Please try again.",
                 suggestions := [], loading := false } :=
  ⟨rfl, rfl⟩

/-- C9 (amended): only the FIRST letter of the preload list ("a") can seed
the fallback: a preload completion for any other letter never touches
`lastValidQuery`/`lastValidResults`, while a successful, non-empty, uncached
"a" preload seeds them when no query has been resolved yet.  (The frozen
claim lets the first SUCCESSFUL letter seed regardless of which letter it
is; the code compares the letter against `commonFirstLetters[0]`, see the
counterexample.) -/
theorem preloadSeedingOnlyFirstLetter (letter : String)
    (response : Option (List Interest)) (s : AppState) (items : List Interest) :
    (letter ≠ "a" →
      (preloadStep letter response s).lastValidQuery = s.lastValidQuery ∧
      (preloadStep letter response s).lastSearchResults = s.lastSearchResults) ∧
    (lookupCache s.suggestionsCache "a" = none → s.lastSearchResults = [] →
      ((items.map formatSuggestion).filter
        (fun sug => !s.selectedInterests.any fun item => sameInterest item sug)) ≠ [] →
      (preloadStep "a" (some items) s).lastValidQuery = "a" ∧
      (preloadStep "a" (some items) s).lastSearchResults
        = (items.map formatSuggestion).filter
            (fun sug => !s.selectedInterests.any fun item => sameInterest item sug)) := by
  constructor
  · intro hletter
    unfold preloadStep
    dsimp only
    split
    · exact ⟨rfl, rfl⟩
    · split
      · exact ⟨rfl, rfl⟩
      · split
        · rename_i hcond
          simp only [Bool.and_eq_true, decide_eq_true_eq] at hcond
          exact absurd hcond.1.1 hletter
        · exact ⟨rfl, rfl⟩
  · intro hnone hempty hfil
    unfold preloadStep
    dsimp only
    rw [hnone]
    have hcond : (decide (("a" : String) = commonFirstLetters.headD "")
        && !((items.map formatSuggestion).filter
          (fun sug => !s.selectedInterests.any fun item => sameInterest item sug)).isEmpty
        && s.lastSearchResults.isEmpty) = true := by
      simp only [Bool.and_eq_true, decide_eq_true_eq, Bool.not_eq_true',
        List.isEmpty_eq_false, List.isEmpty_iff]
      exact ⟨⟨rfl, hfil⟩, hempty⟩
    rw [if_neg (by simp), if_pos hcond]
    exact ⟨rfl, rfl⟩

/-- C9 witness: a "b" completion does not seed the fallback; a non-empty
uncached "a" completion does. -/
theorem preloadSeedingOnlyFirstLetter_witness :
    (preloadStep "b" (some [moviesI]) emptyState).lastValidQuery
        = emptyState.lastValidQuery ∧
    (preloadStep "a" (some [musicI]) emptyState).lastValidQuery = "a" :=
  ⟨((preloadSeedingOnlyFirstLetter "b" (some [moviesI]) emptyState [musicI]).1
      (by decide)).1,
    ((preloadSeedingOnlyFirstLetter "a" (some [musicI]) emptyState [musicI]).2
      (by decide) (by decide) (by decide)).1⟩

/-- C9 counterexample: the "a" preload fails, the later "b" preload succeeds
with a non-empty result (it is cached under "b"), no query has been resolved
— yet the fallback stays unseeded, against the claim's "regardless of which
letter". -/
theorem preloadSeedingOnlyFirstLetter_counterexample :
    preloadStep "a" none emptyState = emptyState ∧
    (preloadStep "b" (some [moviesI]) (preloadStep "a" none emptyState)).lastValidQuery
      = "" ∧
    (preloadStep "b" (some [moviesI]) (preloadStep "a" none emptyState)).lastSearchResults
      = [] ∧
    lookupCache (preloadStep "b" (some [moviesI])
        (preloadStep "a" none emptyState)).suggestionsCache "b" = some [moviesI] := by
  decide

/-- C10: a successful fetch always writes the post-filter result set — even
when empty — into the cache under the normalized query (the negative entry
the suppression heuristic relies on), leaves the fallback untouched when
that set is empty, and promotes the fallback exactly when it is non-empty. -/
theorem fetchCacheWriteAndPromotion (q : String) (s : AppState)
    (items : List Interest) :
    lookupCache (applyFetchResult q (.success items) s).suggestionsCache (normalize q)
      = some ((items.map formatSuggestion).filter
          (fun sug => !s.selectedInterests.any fun item => sameInterest item sug)) ∧
    (((items.map formatSuggestion).filter
        (fun sug => !s.selectedInterests.any fun item => sameInterest item sug)) = [] →
      (applyFetchResult q (.success items) s).lastSearchResults = s.lastSearchResults ∧
      (applyFetchResult q (.success items) s).lastValidQuery = s.lastValidQuery) ∧
    (((items.map formatSuggestion).filter
        (fun sug => !s.selectedInterests.any fun item => sameInterest item sug)) ≠ [] →
      (applyFetchResult q (.success items) s).lastSearchResults
        = (items.map formatSuggestion).filter
            (fun sug => !s.selectedInterests.any fun item => sameInterest item sug) ∧
      (applyFetchResult q (.success items) s).lastValidQuery = normalize q) := by
  unfold applyFetchResult
  dsimp only
  refine ⟨?_, ?_, ?_⟩
  · split
    · exact lookupCache_putCache_self _ _ _
    · exact lookupCache_putCache_self _ _ _
  · intro hnil
    rw [if_pos (by simp [List.isEmpty_iff, hnil])]
    exact ⟨rfl, rfl⟩
  · intro hne
    rw [if_neg (by simpa [List.isEmpty_iff] using hne)]
    exact ⟨rfl, rfl⟩

/-- C10 witness: with Chess selected, fetching "q" and receiving only Chess
yields an empty post-filter set; the cache still gains `"q" -> []` and the
fallback is untouched. -/
theorem fetchCacheWriteAndPromotion_witness :
    lookupCache (applyFetchResult "q" (.success [sel42]) c10s).suggestionsCache "q"
      = some [] ∧
    (applyFetchResult "q" (.success [sel42]) c10s).lastValidQuery
      = c10s.lastValidQuery := by
  have h := fetchCacheWriteAndPromotion "q" c10s [sel42]
  have hf : (([sel42].map formatSuggestion).filter
      (fun sug => !c10s.selectedInterests.any fun item => sameInterest item sug))
      = ([] : List Interest) := by decide
  have hn : normalize "q" = "q" := by decide
  refine ⟨?_, (h.2.1 hf).2⟩
  have h1 := h.1
  rw [hf, hn] at h1
  exact h1

end Convose
